import Mathlib

/-!
Verification of the `nym` gateway core: the versioned tunnel-protocol codec
(`src/common/ip-packet-requests/src/request.rs`) and the wireguard gateway
session state with its client registry
(`src/common/wireguard-types/src/lib.rs`).

The codec in the source serializes `IpPacketRequest` with
`make_bincode_serializer()`, i.e. bincode `DefaultOptions` with big-endian
byte order and varint integer encoding (trailing bytes rejected).  We embed
that byte layout directly: a byte is a `Nat` (kept `< 256` by wellformedness),
a buffer is a `List Nat`, and the fallible deserializer is a function into
`Except String`.  Randomness (`OsRng` in `generate_random`) is modelled by
passing the drawn `u64` explicitly to the constructors.  An `f64` field is
modelled by its 8-byte IEEE bit pattern (a `Nat < 2^64`): the codec only ever
moves those 8 bytes, it never computes with the float value.
-/

abbrev Bytes := List Nat

/-- Big-endian base-256 digits of `n`, exactly `k` bytes (most significant
first), as written by bincode for the multi-byte arms of varints and for
`f64` payloads under `with_big_endian()`. -/
def beBytes : Nat → Nat → Bytes
  | 0, _ => []
  | k + 1, n => beBytes k (n / 256) ++ [n % 256]

/-- Accumulator worker for reading `k` big-endian bytes. -/
def readBeAux : Nat → Nat → Bytes → Except String (Nat × Bytes)
  | 0, acc, bs => .ok (acc, bs)
  | _ + 1, _, [] => .error "unexpected end of input"
  | k + 1, acc, b :: bs => readBeAux k (acc * 256 + b) bs

/-- Read `k` big-endian bytes as one unsigned integer. -/
def readBe (k : Nat) (bs : Bytes) : Except String (Nat × Bytes) :=
  readBeAux k 0 bs

/-- Read a single raw byte (bincode writes `u8` values as-is, even under
varint encoding). -/
def readByte : Bytes → Except String (Nat × Bytes)
  | [] => .error "unexpected end of input"
  | b :: bs => .ok (b, bs)

/-- Read exactly `k` raw bytes. -/
def readBytes : Nat → Bytes → Except String (Bytes × Bytes)
  | 0, bs => .ok ([], bs)
  | _ + 1, [] => .error "unexpected end of input"
  | k + 1, b :: bs => do
      let (xs, rest) ← readBytes k bs
      pure (b :: xs, rest)

/-- Bincode `VarintEncoding` for a `u64`: values below 251 are one raw byte;
otherwise a marker byte 251/252/253 followed by the value as a big-endian
`u16`/`u32`/`u64`. -/
def encodeVarint (n : Nat) : Bytes :=
  if n < 251 then [n]
  else if n < 2 ^ 16 then 251 :: beBytes 2 n
  else if n < 2 ^ 32 then 252 :: beBytes 4 n
  else 253 :: beBytes 8 n

/-- Bincode varint decoding targeting a `u64`. -/
def decodeVarint (bs : Bytes) : Except String (Nat × Bytes) := do
  let (b, bs) ← readByte bs
  if b < 251 then pure (b, bs)
  else if b = 251 then readBe 2 bs
  else if b = 252 then readBe 4 bs
  else if b = 253 then readBe 8 bs
  else throw "invalid varint discriminant"

/-- Bincode varint decoding targeting a `u32` (used for serde enum variant
indices); the `u64` marker 253 is out of range here. -/
def decodeVarint32 (bs : Bytes) : Except String (Nat × Bytes) := do
  let (b, bs) ← readByte bs
  if b < 251 then pure (b, bs)
  else if b = 251 then readBe 2 bs
  else if b = 252 then readBe 4 bs
  else throw "invalid varint discriminant"

/-- Bincode `serialize_bytes`: varint length prefix followed by the raw
bytes.  Used for `Recipient` (always 96 bytes) and `bytes::Bytes`. -/
def encodeByteSeq (xs : Bytes) : Bytes :=
  encodeVarint xs.length ++ xs

/-- Inverse of `encodeByteSeq`. -/
def decodeByteSeq (bs : Bytes) : Except String (Bytes × Bytes) := do
  let (len, bs) ← decodeVarint bs
  readBytes len bs

/-- Serde `Option` layout in bincode: a `u8` tag (0 = `None`, 1 = `Some`)
followed by the payload. -/
def encodeOption {α : Type} (enc : α → Bytes) : Option α → Bytes
  | none => [0]
  | some x => 1 :: enc x

/-- Inverse of `encodeOption`; any tag other than 0 or 1 is rejected. -/
def decodeOption {α : Type} (dec : Bytes → Except String (α × Bytes))
    (bs : Bytes) : Except String (Option α × Bytes) := do
  let (tag, bs) ← readByte bs
  if tag = 0 then pure (none, bs)
  else if tag = 1 then do
    let (x, bs) ← dec bs
    pure (some x, bs)
  else throw "invalid Option tag"

/-- `std::net::IpAddr`: a two-variant enum over 4 or 16 raw octets.  Serde
serializes it (non-human-readable) as variant index then the octet tuple. -/
inductive IpAddr where
  | v4 (a b c d : Nat)
  | v6 (octets : Bytes)
deriving DecidableEq, Repr

/-- `nym_sphinx::addressing::clients::Recipient` (external crate): an opaque
mixnet address whose serde form is `serialize_bytes` over its fixed 96-byte
representation (identity key, encryption key and gateway identity, 32 bytes
each); deserialization rejects any length other than 96. -/
structure Recipient where
  bytes : Bytes
deriving DecidableEq, Repr

/-- Mirrors `StaticConnectRequest` in `request.rs`.  `reply_to_avg_mix_delays`
holds the 8-byte IEEE-754 bit pattern of the `Option<f64>` payload. -/
structure StaticConnectRequest where
  request_id : Nat
  ip : IpAddr
  reply_to : Recipient
  reply_to_hops : Option Nat
  reply_to_avg_mix_delays : Option Nat
deriving DecidableEq, Repr

/-- Mirrors `DynamicConnectRequest` in `request.rs`. -/
structure DynamicConnectRequest where
  request_id : Nat
  reply_to : Recipient
  reply_to_hops : Option Nat
  reply_to_avg_mix_delays : Option Nat
deriving DecidableEq, Repr

/-- Mirrors `DisconnectRequest` in `request.rs`. -/
structure DisconnectRequest where
  request_id : Nat
  reply_to : Recipient
deriving DecidableEq, Repr

/-- Mirrors `DataRequest` in `request.rs` (`ip_packet: bytes::Bytes`). -/
structure DataRequest where
  ip_packet : Bytes
deriving DecidableEq, Repr

/-- Mirrors the `IpPacketRequestData` enum in `request.rs`; serde variant
indices follow declaration order: 0, 1, 2, 3. -/
inductive IpPacketRequestData where
  | StaticConnect (request : StaticConnectRequest)
  | DynamicConnect (request : DynamicConnectRequest)
  | Disconnect (request : DisconnectRequest)
  | Data (request : DataRequest)
deriving DecidableEq, Repr

/-- Mirrors the `IpPacketRequest` struct in `request.rs`. -/
structure IpPacketRequest where
  version : Nat
  data : IpPacketRequestData
deriving DecidableEq, Repr

/-- Modelled from the spec: the protocol's current version constant
`CURRENT_VERSION`, declared in the crate root of `ip-packet-requests`
(absent from `src/`); the in-crate tests fix the wire version at 4. -/
def CURRENT_VERSION : Nat := 4

/-- Mirrors `IpPacketRequest::new_static_connect_request`; the `u64` drawn
from `OsRng` by `generate_random` is passed in as `request_id`. -/
def new_static_connect_request (request_id : Nat) (ip : IpAddr)
    (reply_to : Recipient) (reply_to_hops : Option Nat)
    (reply_to_avg_mix_delays : Option Nat) : IpPacketRequest × Nat :=
  (⟨CURRENT_VERSION,
    .StaticConnect ⟨request_id, ip, reply_to, reply_to_hops,
      reply_to_avg_mix_delays⟩⟩,
   request_id)

/-- Mirrors `IpPacketRequest::new_dynamic_connect_request`. -/
def new_dynamic_connect_request (request_id : Nat) (reply_to : Recipient)
    (reply_to_hops : Option Nat) (reply_to_avg_mix_delays : Option Nat) :
    IpPacketRequest × Nat :=
  (⟨CURRENT_VERSION,
    .DynamicConnect ⟨request_id, reply_to, reply_to_hops,
      reply_to_avg_mix_delays⟩⟩,
   request_id)

/-- Mirrors `IpPacketRequest::new_disconnect_request`. -/
def new_disconnect_request (request_id : Nat) (reply_to : Recipient) :
    IpPacketRequest × Nat :=
  (⟨CURRENT_VERSION, .Disconnect ⟨request_id, reply_to⟩⟩, request_id)

/-- Mirrors `IpPacketRequest::new_ip_packet`. -/
def new_ip_packet (ip_packet : Bytes) : IpPacketRequest :=
  ⟨CURRENT_VERSION, .Data ⟨ip_packet⟩⟩

/-- Mirrors `IpPacketRequest::id`. -/
def IpPacketRequest.id (r : IpPacketRequest) : Option Nat :=
  match r.data with
  | .StaticConnect request => some request.request_id
  | .DynamicConnect request => some request.request_id
  | .Disconnect request => some request.request_id
  | .Data _ => none

/-- Mirrors `IpPacketRequest::recipient`. -/
def IpPacketRequest.recipient (r : IpPacketRequest) : Option Recipient :=
  match r.data with
  | .StaticConnect request => some request.reply_to
  | .DynamicConnect request => some request.reply_to
  | .Disconnect request => some request.reply_to
  | .Data _ => none

/-- Serde layout of `IpAddr`: variant index as a varint `u32`, then the raw
octets (an array serializes as a tuple, no length prefix). -/
def encodeIpAddr : IpAddr → Bytes
  | .v4 a b c d => encodeVarint 0 ++ [a, b, c, d]
  | .v6 octets => encodeVarint 1 ++ octets

/-- Inverse of `encodeIpAddr`. -/
def decodeIpAddr (bs : Bytes) : Except String (IpAddr × Bytes) := do
  let (tag, bs) ← decodeVarint32 bs
  if tag = 0 then
    let (a, bs) ← readByte bs
    let (b, bs) ← readByte bs
    let (c, bs) ← readByte bs
    let (d, bs) ← readByte bs
    pure (.v4 a b c d, bs)
  else if tag = 1 then
    let (octets, bs) ← readBytes 16 bs
    pure (.v6 octets, bs)
  else throw "unknown IpAddr variant"

/-- Serde layout of `Recipient`: its 96 bytes via `serialize_bytes`. -/
def encodeRecipient (r : Recipient) : Bytes :=
  encodeByteSeq r.bytes

/-- Inverse of `encodeRecipient`; `Recipient::try_from_bytes` rejects any
slice whose length is not 96. -/
def decodeRecipient (bs : Bytes) : Except String (Recipient × Bytes) := do
  let (xs, bs) ← decodeByteSeq bs
  if xs.length = 96 then pure (⟨xs⟩, bs)
  else throw "received recipient had invalid length"

/-- Field-order serialization of `StaticConnectRequest`. -/
def encodeStaticConnect (s : StaticConnectRequest) : Bytes :=
  encodeVarint s.request_id ++ encodeIpAddr s.ip ++
    encodeRecipient s.reply_to ++
    encodeOption (fun h => [h]) s.reply_to_hops ++
    encodeOption (beBytes 8) s.reply_to_avg_mix_delays

/-- Inverse of `encodeStaticConnect`. -/
def decodeStaticConnect (bs : Bytes) :
    Except String (StaticConnectRequest × Bytes) := do
  let (request_id, bs) ← decodeVarint bs
  let (ip, bs) ← decodeIpAddr bs
  let (reply_to, bs) ← decodeRecipient bs
  let (reply_to_hops, bs) ← decodeOption readByte bs
  let (reply_to_avg_mix_delays, bs) ← decodeOption (readBe 8) bs
  pure (⟨request_id, ip, reply_to, reply_to_hops, reply_to_avg_mix_delays⟩,
    bs)

/-- Field-order serialization of `DynamicConnectRequest`. -/
def encodeDynamicConnect (s : DynamicConnectRequest) : Bytes :=
  encodeVarint s.request_id ++ encodeRecipient s.reply_to ++
    encodeOption (fun h => [h]) s.reply_to_hops ++
    encodeOption (beBytes 8) s.reply_to_avg_mix_delays

/-- Inverse of `encodeDynamicConnect`. -/
def decodeDynamicConnect (bs : Bytes) :
    Except String (DynamicConnectRequest × Bytes) := do
  let (request_id, bs) ← decodeVarint bs
  let (reply_to, bs) ← decodeRecipient bs
  let (reply_to_hops, bs) ← decodeOption readByte bs
  let (reply_to_avg_mix_delays, bs) ← decodeOption (readBe 8) bs
  pure (⟨request_id, reply_to, reply_to_hops, reply_to_avg_mix_delays⟩, bs)

/-- Field-order serialization of `DisconnectRequest`. -/
def encodeDisconnect (s : DisconnectRequest) : Bytes :=
  encodeVarint s.request_id ++ encodeRecipient s.reply_to

/-- Inverse of `encodeDisconnect`. -/
def decodeDisconnect (bs : Bytes) :
    Except String (DisconnectRequest × Bytes) := do
  let (request_id, bs) ← decodeVarint bs
  let (reply_to, bs) ← decodeRecipient bs
  pure (⟨request_id, reply_to⟩, bs)

/-- Serialization of `DataRequest` (`bytes::Bytes` is `serialize_bytes`). -/
def encodeData (d : DataRequest) : Bytes :=
  encodeByteSeq d.ip_packet

/-- Inverse of `encodeData`. -/
def decodeData (bs : Bytes) : Except String (DataRequest × Bytes) := do
  let (ip_packet, bs) ← decodeByteSeq bs
  pure (⟨ip_packet⟩, bs)

/-- Serde enum layout of `IpPacketRequestData`: varint `u32` variant index
in declaration order, then the variant payload. -/
def encodeRequestData : IpPacketRequestData → Bytes
  | .StaticConnect s => encodeVarint 0 ++ encodeStaticConnect s
  | .DynamicConnect s => encodeVarint 1 ++ encodeDynamicConnect s
  | .Disconnect s => encodeVarint 2 ++ encodeDisconnect s
  | .Data d => encodeVarint 3 ++ encodeData d

/-- Inverse of `encodeRequestData`. -/
def decodeRequestData (bs : Bytes) :
    Except String (IpPacketRequestData × Bytes) := do
  let (tag, bs) ← decodeVarint32 bs
  if tag = 0 then
    let (s, bs) ← decodeStaticConnect bs
    pure (.StaticConnect s, bs)
  else if tag = 1 then
    let (s, bs) ← decodeDynamicConnect bs
    pure (.DynamicConnect s, bs)
  else if tag = 2 then
    let (s, bs) ← decodeDisconnect bs
    pure (.Disconnect s, bs)
  else if tag = 3 then
    let (d, bs) ← decodeData bs
    pure (.Data d, bs)
  else throw "unknown IpPacketRequestData variant"

/-- Full wire layout of `IpPacketRequest`: the `u8` version byte, then the
payload enum. -/
def encodeRequest (r : IpPacketRequest) : Bytes :=
  [r.version] ++ encodeRequestData r.data

/-- Inverse of `encodeRequest`. -/
def decodeRequest (bs : Bytes) : Except String (IpPacketRequest × Bytes) := do
  let (version, bs) ← readByte bs
  let (data, bs) ← decodeRequestData bs
  pure (⟨version, data⟩, bs)

/-- Mirrors `IpPacketRequest::to_bytes`:
`make_bincode_serializer().serialize(self)`.  For this message type the
bincode write path into a `Vec<u8>` cannot fail, so the `Result` is always
the `Ok` of the deterministic layout `encodeRequest`. -/
def to_bytes (r : IpPacketRequest) : Except String Bytes :=
  .ok (encodeRequest r)

/-- Mirrors `IpPacketRequest::from_reconstructed_message`:
`make_bincode_serializer().deserialize(&message.message)`.  The configured
`DefaultOptions` reject trailing bytes, hence the emptiness check on the
remainder.  Note the source performs no version comparison whatsoever. -/
def from_reconstructed_message (message : Bytes) :
    Except String IpPacketRequest := do
  let (r, rest) ← decodeRequest message
  if rest = [] then pure r
  else throw "slice had bytes remaining after deserialization"

/-- Range constraints that every `IpAddr` reaching the codec satisfies by
construction in Rust (octets are `u8`). -/
def IpAddr.Wellformed : IpAddr → Prop
  | .v4 a b c d => a < 256 ∧ b < 256 ∧ c < 256 ∧ d < 256
  | .v6 octets => octets.length = 16 ∧ ∀ b ∈ octets, b < 256

instance (a : IpAddr) : Decidable a.Wellformed :=
  match a with
  | .v4 a b c d =>
      inferInstanceAs (Decidable (a < 256 ∧ b < 256 ∧ c < 256 ∧ d < 256))
  | .v6 octets =>
      inferInstanceAs (Decidable (octets.length = 16 ∧ ∀ b ∈ octets, b < 256))

/-- A `Recipient` from the Rust type always converts to exactly 96 bytes. -/
def Recipient.Wellformed (r : Recipient) : Prop :=
  r.bytes.length = 96 ∧ ∀ b ∈ r.bytes, b < 256

instance (r : Recipient) : Decidable r.Wellformed :=
  inferInstanceAs (Decidable (r.bytes.length = 96 ∧ ∀ b ∈ r.bytes, b < 256))

/-- Payload of an `Option` field lies below `bound` (trivially true for
`None`). -/
def optBelow (bound : Nat) : Option Nat → Prop
  | none => True
  | some x => x < bound

instance (bound : Nat) (o : Option Nat) : Decidable (optBelow bound o) :=
  match o with
  | none => .isTrue trivial
  | some x => inferInstanceAs (Decidable (x < bound))

/-- Constraints a `StaticConnectRequest` satisfies in Rust: `u64` id, `u8`
octets and hops, 96-byte recipient, 64-bit `f64` pattern. -/
def StaticConnectRequest.Wellformed (s : StaticConnectRequest) : Prop :=
  s.request_id < 2 ^ 64 ∧ s.ip.Wellformed ∧ s.reply_to.Wellformed ∧
    optBelow 256 s.reply_to_hops ∧ optBelow (2 ^ 64) s.reply_to_avg_mix_delays

instance (s : StaticConnectRequest) : Decidable s.Wellformed :=
  inferInstanceAs (Decidable (_ ∧ _ ∧ _ ∧ _ ∧ _))

/-- Constraints a `DynamicConnectRequest` satisfies in Rust. -/
def DynamicConnectRequest.Wellformed (s : DynamicConnectRequest) : Prop :=
  s.request_id < 2 ^ 64 ∧ s.reply_to.Wellformed ∧
    optBelow 256 s.reply_to_hops ∧ optBelow (2 ^ 64) s.reply_to_avg_mix_delays

instance (s : DynamicConnectRequest) : Decidable s.Wellformed :=
  inferInstanceAs (Decidable (_ ∧ _ ∧ _ ∧ _))

/-- Constraints a `DisconnectRequest` satisfies in Rust. -/
def DisconnectRequest.Wellformed (s : DisconnectRequest) : Prop :=
  s.request_id < 2 ^ 64 ∧ s.reply_to.Wellformed

instance (s : DisconnectRequest) : Decidable s.Wellformed :=
  inferInstanceAs (Decidable (_ ∧ _))

/-- Constraints a `DataRequest` satisfies in Rust (`bytes::Bytes` holds at
most `usize::MAX` = `2^64 - 1` bytes). -/
def DataRequest.Wellformed (d : DataRequest) : Prop :=
  d.ip_packet.length < 2 ^ 64 ∧ ∀ b ∈ d.ip_packet, b < 256

instance (d : DataRequest) : Decidable d.Wellformed :=
  inferInstanceAs (Decidable (_ ∧ _))

/-- Variant-wise wellformedness of the payload enum. -/
def IpPacketRequestData.Wellformed : IpPacketRequestData → Prop
  | .StaticConnect s => s.Wellformed
  | .DynamicConnect s => s.Wellformed
  | .Disconnect s => s.Wellformed
  | .Data d => d.Wellformed

instance (d : IpPacketRequestData) : Decidable d.Wellformed :=
  match d with
  | .StaticConnect s => inferInstanceAs (Decidable s.Wellformed)
  | .DynamicConnect s => inferInstanceAs (Decidable s.Wellformed)
  | .Disconnect s => inferInstanceAs (Decidable s.Wellformed)
  | .Data d => inferInstanceAs (Decidable d.Wellformed)

/-- A well-formed in-memory `IpPacketRequest`: `u8` version and a payload
within the Rust types' ranges. -/
def IpPacketRequest.Wellformed (r : IpPacketRequest) : Prop :=
  r.version < 256 ∧ r.data.Wellformed

instance (r : IpPacketRequest) : Decidable r.Wellformed :=
  inferInstanceAs (Decidable (_ ∧ _))

/-- The 96 raw bytes of the fixed reply-to address used by the in-crate size
test `check_size_of_request` (base58
`D1rr...AsM9.9Sss...4CvV@GJqd...KUuN` decoded: identity key, encryption key,
gateway identity). -/
def testRecipient : Recipient :=
  ⟨[178, 132, 158, 114, 142, 62, 178, 38, 210, 216, 100, 150, 63, 140, 169,
    245, 236, 129, 201, 37, 88, 169, 242, 99, 189, 190, 162, 157, 52, 237,
    248, 160,
    125, 126, 138, 128, 201, 135, 194, 97, 189, 67, 95, 218, 32, 153, 177,
    215, 20, 204, 108, 70, 244, 4, 181, 75, 130, 194, 252, 146, 166, 126,
    102, 18,
    227, 113, 39, 115, 56, 131, 91, 119, 54, 125, 70, 79, 200, 125, 92, 190,
    115, 91, 68, 194, 156, 202, 10, 227, 99, 60, 165, 77, 146, 115, 62,
    153]⟩

/-- The message built by the in-crate test `check_size_of_request`. -/
def check_size_of_request_input : IpPacketRequest :=
  ⟨4, .StaticConnect ⟨123, .v4 10 0 0 1, testRecipient, none, none⟩⟩

/-- The message built by the in-crate test `check_size_of_data`: a `Data`
request wrapping 32 bytes of value 1. -/
def check_size_of_data_input : IpPacketRequest :=
  ⟨4, .Data ⟨List.replicate 32 1⟩⟩

/-- Modelled from the spec: `PeerPublicKey`
(`wireguard-types/src/public_key.rs`, absent from `src/`): fixed-length
public-key bytes with equality over the raw bytes. -/
structure PeerPublicKey where
  bytes : Bytes
deriving DecidableEq, Repr

/-- Modelled from the spec: `GatewayClient`
(`wireguard-types/src/registration.rs`, absent from `src/`): the
admitted-peer record `{peer_public_key, assigned_tunnel_ip, registered_at,
last_handshake_at}`. -/
structure GatewayClient where
  peer_public_key : PeerPublicKey
  assigned_tunnel_ip : IpAddr
  registered_at : Nat
  last_handshake_at : Nat
deriving DecidableEq, Repr

/-- Modelled from the spec: `GatewayClientRegistry` is
`DashMap<PeerPublicKey, GatewayClient>` (see `Arc::new(DashMap::default())`
in `WireguardGatewayData::new`): a finite map from peer public key to
admitted-peer record, embedded as an association list whose logical content
ignores duplicate keys (insert removes any previous binding). -/
def GatewayClientRegistry : Type :=
  List (PeerPublicKey × GatewayClient)

/-- Modelled from the spec: `DashMap::get` — lookup never fails, absence is
`none`. -/
def GatewayClientRegistry.lookup (reg : GatewayClientRegistry)
    (k : PeerPublicKey) : Option GatewayClient :=
  (reg.find? (fun p => decide (p.1 = k))).map (fun p => p.2)

/-- Modelled from the spec: `DashMap::insert` — overwrite semantics,
returning the previous binding if any. -/
def GatewayClientRegistry.register (reg : GatewayClientRegistry)
    (k : PeerPublicKey) (c : GatewayClient) :
    Option GatewayClient × GatewayClientRegistry :=
  (reg.lookup k, (k, c) :: reg.filter (fun p => decide (p.1 ≠ k)))

/-- Modelled from the spec: `DashMap::remove` — returns the removed binding
if any; never fails. -/
def GatewayClientRegistry.remove (reg : GatewayClientRegistry)
    (k : PeerPublicKey) : Option GatewayClient × GatewayClientRegistry :=
  (reg.lookup k, reg.filter (fun p => decide (p.1 ≠ k)))

/-- Modelled from the spec: `DashMap::len` — the number of live bindings. -/
def GatewayClientRegistry.size (reg : GatewayClientRegistry) : Nat :=
  reg.length

/-- Modelled from the spec: the static gateway `Config`
(`wireguard-types/src/config.rs`, absent from `src/`), treated as opaque
immutable data. -/
structure Config where
  val : Nat
deriving DecidableEq, Repr

/-- Modelled from the spec: the gateway's long-term encryption `KeyPair`
(external crate `nym_crypto`), treated as opaque immutable data. -/
structure KeyPair where
  private_key : Nat
  public_key : Nat
deriving DecidableEq, Repr

/-- Mirrors `WireguardGatewayData` in `wireguard-types/src/lib.rs`. -/
structure WireguardGatewayData where
  config : Config
  keypair : KeyPair
  client_registry : GatewayClientRegistry

/-- Mirrors `WireguardGatewayData::new`: stores the supplied config and key
pair and a fresh empty registry (`DashMap::default()`). -/
def WireguardGatewayData.new (config : Config) (keypair : KeyPair) :
    WireguardGatewayData :=
  ⟨config, keypair, []⟩

/-- Mirrors the accessor `WireguardGatewayData::config` as a state-passing
function: it returns the configuration and the (unchanged) state. -/
def WireguardGatewayData.config' (s : WireguardGatewayData) :
    Config × WireguardGatewayData :=
  (s.config, s)

/-- Mirrors the accessor `WireguardGatewayData::keypair`. -/
def WireguardGatewayData.keypair' (s : WireguardGatewayData) :
    KeyPair × WireguardGatewayData :=
  (s.keypair, s)

/-- Mirrors the accessor `WireguardGatewayData::client_registry`. -/
def WireguardGatewayData.client_registry' (s : WireguardGatewayData) :
    GatewayClientRegistry × WireguardGatewayData :=
  (s.client_registry, s)

/-- An input used by the hop-override witness: a concrete wellformed
`StaticConnectRequest` base record. -/
def witnessStatic : StaticConnectRequest :=
  ⟨1, .v4 10 0 0 1, testRecipient, some 7, none⟩

/-- An input used by the hop-override witness: a concrete wellformed
`DynamicConnectRequest` base record. -/
def witnessDynamic : DynamicConnectRequest :=
  ⟨2, testRecipient, some 3, some 0⟩

set_option maxRecDepth 10000

@[simp] theorem exceptBind_ok {ε α β : Type} (a : α) (f : α → Except ε β) :
    ((Except.ok a : Except ε α) >>= f) = f a := rfl

@[simp] theorem exceptBind_error {ε α β : Type} (e : ε)
    (f : α → Except ε β) :
    ((Except.error e : Except ε α) >>= f) = Except.error e := rfl

@[simp] theorem exceptPure_eq {ε α : Type} (a : α) :
    (pure a : Except ε α) = Except.ok a := rfl

@[simp] theorem exceptThrow_eq {ε α : Type} (e : ε) :
    (throw e : Except ε α) = Except.error e := rfl

theorem readBeAux_beBytes (k : Nat) :
    ∀ (j acc n : Nat) (rest : Bytes), n < 256 ^ k →
      readBeAux (j + k) acc (beBytes k n ++ rest) =
        readBeAux j (acc * 256 ^ k + n) rest := by
  induction k with
  | zero =>
      intro j acc n rest h
      have : n = 0 := by omega
      subst this
      simp [beBytes, readBeAux]
  | succ k ih =>
      intro j acc n rest h
      have hd : n / 256 < 256 ^ k := by
        rw [Nat.div_lt_iff_lt_mul (by norm_num)]
        calc n < 256 ^ (k + 1) := h
          _ = 256 ^ k * 256 := by rw [pow_succ]
      have hsplit : beBytes (k + 1) n ++ rest =
          beBytes k (n / 256) ++ (n % 256 :: rest) := by
        simp [beBytes]
      have hj : j + (k + 1) = (j + 1) + k := by omega
      rw [hsplit, hj, ih (j + 1) acc (n / 256) (n % 256 :: rest) hd]
      have hstep : readBeAux (j + 1) (acc * 256 ^ k + n / 256)
          (n % 256 :: rest) =
          readBeAux j ((acc * 256 ^ k + n / 256) * 256 + n % 256) rest := rfl
      rw [hstep]
      have harith : (acc * 256 ^ k + n / 256) * 256 + n % 256 =
          acc * 256 ^ (k + 1) + n := by
        calc (acc * 256 ^ k + n / 256) * 256 + n % 256
            = acc * 256 ^ k * 256 + (n / 256 * 256 + n % 256) := by ring
          _ = acc * 256 ^ k * 256 + n := by
              generalize acc * 256 ^ k * 256 = t
              omega
          _ = acc * 256 ^ (k + 1) + n := by ring
      rw [harith]

theorem readBe_beBytes (k n : Nat) (h : n < 256 ^ k) :
    ∀ rest : Bytes, readBe k (beBytes k n ++ rest) = .ok (n, rest) := by
  intro rest
  have := readBeAux_beBytes k 0 0 n rest h
  simpa [readBe, readBeAux] using this

theorem decodeVarint_encodeVarint (n : Nat) (h : n < 2 ^ 64) :
    ∀ rest : Bytes, decodeVarint (encodeVarint n ++ rest) = .ok (n, rest) := by
  intro rest
  unfold encodeVarint decodeVarint
  by_cases h1 : n < 251
  · simp [h1, readByte]
  · by_cases h2 : n < 65536
    · have hb : n < 256 ^ 2 := by simpa using h2
      simp [h1, h2, readByte, readBe_beBytes 2 n hb]
    · by_cases h3 : n < 4294967296
      · have hb : n < 256 ^ 4 := by simpa using h3
        simp [h1, h2, h3, readByte, readBe_beBytes 4 n hb]
      · have hb : n < 256 ^ 8 := by simpa using h
        simp [h1, h2, h3, readByte, readBe_beBytes 8 n hb]

theorem readBytes_append (xs : Bytes) :
    ∀ rest : Bytes, readBytes xs.length (xs ++ rest) = .ok (xs, rest) := by
  induction xs with
  | nil => intro rest; simp [readBytes]
  | cons b bs ih => intro rest; simp [readBytes, ih]

theorem decodeByteSeq_encodeByteSeq (xs : Bytes) (h : xs.length < 2 ^ 64) :
    ∀ rest : Bytes, decodeByteSeq (encodeByteSeq xs ++ rest) = .ok (xs, rest) := by
  intro rest
  unfold encodeByteSeq decodeByteSeq
  rw [List.append_assoc]
  simp [decodeVarint_encodeVarint xs.length h, readBytes_append]

theorem decodeOption_encodeOption {α : Type} (enc : α → Bytes)
    (dec : Bytes → Except String (α × Bytes)) (P : α → Prop)
    (hdec : ∀ x, P x → ∀ r : Bytes, dec (enc x ++ r) = .ok (x, r))
    (o : Option α) (ho : ∀ x, o = some x → P x) :
    ∀ rest : Bytes,
      decodeOption dec (encodeOption enc o ++ rest) = .ok (o, rest) := by
  intro rest
  cases o with
  | none => simp [encodeOption, decodeOption, readByte]
  | some x =>
      have hx : P x := ho x rfl
      simp [encodeOption, decodeOption, readByte, hdec x hx rest]

theorem decodeOptionByte (o : Option Nat) :
    ∀ rest : Bytes,
      decodeOption readByte (encodeOption (fun h => [h]) o ++ rest) =
        .ok (o, rest) := by
  apply decodeOption_encodeOption _ _ (fun _ => True)
  · intro x _ r
    simp [readByte]
  · intro x _
    trivial

theorem decodeOptionF64 (o : Option Nat) (ho : optBelow (2 ^ 64) o) :
    ∀ rest : Bytes,
      decodeOption (readBe 8) (encodeOption (beBytes 8) o ++ rest) =
        .ok (o, rest) := by
  apply decodeOption_encodeOption _ _ (fun x => x < 2 ^ 64)
  · intro x hx r
    have hb : x < 256 ^ 8 := by norm_num at hx ⊢; omega
    exact readBe_beBytes 8 x hb r
  · intro x hx
    cases o with
    | none => cases hx
    | some y =>
        cases hx
        exact ho

theorem decodeIpAddr_encodeIpAddr (a : IpAddr) (h : a.Wellformed) :
    ∀ rest : Bytes, decodeIpAddr (encodeIpAddr a ++ rest) = .ok (a, rest) := by
  intro rest
  cases a with
  | v4 a b c d =>
      simp [encodeIpAddr, decodeIpAddr, decodeVarint32, encodeVarint, readByte]
  | v6 octets =>
      obtain ⟨hlen, _⟩ := h
      have h16 : readBytes 16 (octets ++ rest) = .ok (octets, rest) := by
        rw [← hlen]
        exact readBytes_append octets rest
      simp [encodeIpAddr, decodeIpAddr, decodeVarint32, encodeVarint, readByte,
        h16]

theorem decodeRecipient_encodeRecipient (r : Recipient) (h : r.Wellformed) :
    ∀ rest : Bytes,
      decodeRecipient (encodeRecipient r ++ rest) = .ok (r, rest) := by
  intro rest
  obtain ⟨hlen, _⟩ := h
  have hs : decodeByteSeq (encodeByteSeq r.bytes ++ rest) = .ok (r.bytes, rest) :=
    decodeByteSeq_encodeByteSeq r.bytes (by rw [hlen]; norm_num) rest
  simp [encodeRecipient, decodeRecipient, hs, hlen]

theorem decodeStaticConnect_encode (s : StaticConnectRequest)
    (h : s.Wellformed) :
    ∀ rest : Bytes,
      decodeStaticConnect (encodeStaticConnect s ++ rest) = .ok (s, rest) := by
  intro rest
  obtain ⟨h1, h2, h3, h4, h5⟩ := h
  cases s
  simp only [encodeStaticConnect, decodeStaticConnect, List.append_assoc]
  simp [decodeVarint_encodeVarint _ h1, decodeIpAddr_encodeIpAddr _ h2,
    decodeRecipient_encodeRecipient _ h3, decodeOptionByte,
    decodeOptionF64 _ h5]

theorem decodeDynamicConnect_encode (s : DynamicConnectRequest)
    (h : s.Wellformed) :
    ∀ rest : Bytes,
      decodeDynamicConnect (encodeDynamicConnect s ++ rest) = .ok (s, rest) := by
  intro rest
  obtain ⟨h1, h2, h3, h4⟩ := h
  cases s
  simp only [encodeDynamicConnect, decodeDynamicConnect, List.append_assoc]
  simp [decodeVarint_encodeVarint _ h1, decodeRecipient_encodeRecipient _ h2,
    decodeOptionByte, decodeOptionF64 _ h4]

theorem decodeDisconnect_encode (s : DisconnectRequest) (h : s.Wellformed) :
    ∀ rest : Bytes,
      decodeDisconnect (encodeDisconnect s ++ rest) = .ok (s, rest) := by
  intro rest
  obtain ⟨h1, h2⟩ := h
  cases s
  simp only [encodeDisconnect, decodeDisconnect, List.append_assoc]
  simp [decodeVarint_encodeVarint _ h1, decodeRecipient_encodeRecipient _ h2]

theorem decodeData_encode (d : DataRequest) (h : d.Wellformed) :
    ∀ rest : Bytes, decodeData (encodeData d ++ rest) = .ok (d, rest) := by
  intro rest
  obtain ⟨h1, _⟩ := h
  cases d
  simp [encodeData, decodeData, decodeByteSeq_encodeByteSeq _ h1]

theorem decodeRequestData_encode (d : IpPacketRequestData)
    (h : d.Wellformed) :
    ∀ rest : Bytes,
      decodeRequestData (encodeRequestData d ++ rest) = .ok (d, rest) := by
  intro rest
  cases d with
  | StaticConnect s =>
      simp [encodeRequestData, decodeRequestData, decodeVarint32, encodeVarint,
        readByte, List.append_assoc, decodeStaticConnect_encode s h]
  | DynamicConnect s =>
      simp [encodeRequestData, decodeRequestData, decodeVarint32, encodeVarint,
        readByte, List.append_assoc, decodeDynamicConnect_encode s h]
  | Disconnect s =>
      simp [encodeRequestData, decodeRequestData, decodeVarint32, encodeVarint,
        readByte, List.append_assoc, decodeDisconnect_encode s h]
  | Data d =>
      simp [encodeRequestData, decodeRequestData, decodeVarint32, encodeVarint,
        readByte, List.append_assoc, decodeData_encode d h]

theorem decodeRequest_encode (r : IpPacketRequest)
    (h : r.data.Wellformed) :
    ∀ rest : Bytes,
      decodeRequest (encodeRequest r ++ rest) = .ok (r, rest) := by
  intro rest
  cases r
  simp [encodeRequest, decodeRequest, readByte,
    decodeRequestData_encode _ h]

theorem fromReconstructed_encode (r : IpPacketRequest)
    (h : r.Wellformed) :
    from_reconstructed_message (encodeRequest r) = .ok r := by
  have hd := decodeRequest_encode r h.2 []
  rw [List.append_nil] at hd
  simp [from_reconstructed_message, hd]

/-- C1 (counterexample): the claim that decoding any buffer whose leading
version byte differs from `CURRENT_VERSION` fails with `UnsupportedVersion`
is false: the buffer `[5, 3, 0]` has leading byte 5 ≠ 4, yet
`from_reconstructed_message` decodes it successfully (to a version-5 `Data`
message with an empty packet) — the source performs no version check. -/
theorem decode_accepts_foreign_version :
    (5 : Nat) ≠ CURRENT_VERSION ∧
      from_reconstructed_message [5, 3, 0] =
        .ok ⟨5, IpPacketRequestData.Data ⟨[]⟩⟩ :=
  ⟨by decide, rfl⟩

/-- C1 (amended): `from_reconstructed_message` never inspects the version
byte: a buffer whose leading byte differs from `CURRENT_VERSION` is decoded
successfully whenever the remaining payload is valid, yielding a message
carrying that mismatched version; no `UnsupportedVersion` rejection exists
in the decode path. -/
theorem decode_ignores_version_mismatch (r : IpPacketRequest)
    (hwf : r.Wellformed) (_hv : r.version ≠ CURRENT_VERSION) :
    from_reconstructed_message (encodeRequest r) = .ok r :=
  fromReconstructed_encode r hwf

theorem decode_ignores_version_mismatch_witness :
    from_reconstructed_message
        (encodeRequest ⟨9, IpPacketRequestData.Data ⟨[1, 2, 4, 2, 5]⟩⟩) =
      .ok ⟨9, IpPacketRequestData.Data ⟨[1, 2, 4, 2, 5]⟩⟩ :=
  decode_ignores_version_mismatch ⟨9, IpPacketRequestData.Data ⟨[1, 2, 4, 2, 5]⟩⟩
    (by decide) (by decide)

/-- C2: round-trip — for every well-formed in-memory `IpPacketRequest`
(any of the four variants, fields within their Rust types' ranges),
`to_bytes` succeeds and `from_reconstructed_message` on its output returns
the original message, version and payload both preserved. -/
theorem decode_encode_roundtrip (r : IpPacketRequest) (hwf : r.Wellformed) :
    ∃ bs : Bytes, to_bytes r = .ok bs ∧
      from_reconstructed_message bs = .ok r :=
  ⟨encodeRequest r, rfl, fromReconstructed_encode r hwf⟩

theorem decode_encode_roundtrip_witness :
    ∃ bs : Bytes, to_bytes check_size_of_request_input = .ok bs ∧
      from_reconstructed_message bs = .ok check_size_of_request_input :=
  decode_encode_roundtrip check_size_of_request_input (by decide)

/-- C3: correlation contract — each of the three connect/disconnect
constructors returns a message whose `id` is `some` of the request id
returned alongside it, and `new_ip_packet` yields a `Data` message with
`id = none` and `recipient = none`. -/
theorem constructor_id_recipient_contract :
    ∀ (request_id : Nat) (ip : IpAddr) (reply_to : Recipient)
      (hops delays : Option Nat) (pkt : Bytes),
      (new_static_connect_request request_id ip reply_to hops delays).1.id =
          some (new_static_connect_request request_id ip reply_to hops
            delays).2 ∧
      (new_dynamic_connect_request request_id reply_to hops delays).1.id =
          some (new_dynamic_connect_request request_id reply_to hops
            delays).2 ∧
      (new_disconnect_request request_id reply_to).1.id =
          some (new_disconnect_request request_id reply_to).2 ∧
      (new_ip_packet pkt).id = none ∧
      (new_ip_packet pkt).recipient = none := by
  intro request_id ip reply_to hops delays pkt
  exact ⟨rfl, rfl, rfl, rfl, rfl⟩

/-- C4: concrete vectors — encoding the `StaticConnect` message of the
in-crate size test (`request_id = 123`, ip `10.0.0.1`, the fixed test
reply-to address, hops and delays `None`) yields exactly 107 bytes, and
encoding a `Data` message wrapping a 32-byte payload yields exactly 35
bytes. -/
theorem concrete_vector_sizes :
    Except.map List.length (to_bytes check_size_of_request_input) =
        .ok 107 ∧
      Except.map List.length (to_bytes check_size_of_data_input) = .ok 35 :=
  ⟨rfl, rfl⟩

/-- C5: hop-override distinctness — for any well-formed static or dynamic
connect payload, the message with `reply_to_hops = some 0` and the message
with `reply_to_hops = none` each decode back from their encodings exactly,
and the two decoded values are distinct. -/
theorem hops_override_roundtrip_distinct (v : Nat)
    (s : StaticConnectRequest) (d : DynamicConnectRequest)
    (hv : v < 256) (hs : s.Wellformed) (hd : d.Wellformed) :
    (from_reconstructed_message (encodeRequest
        ⟨v, .StaticConnect { s with reply_to_hops := some 0 }⟩) =
      .ok ⟨v, .StaticConnect { s with reply_to_hops := some 0 }⟩) ∧
    (from_reconstructed_message (encodeRequest
        ⟨v, .StaticConnect { s with reply_to_hops := none }⟩) =
      .ok ⟨v, .StaticConnect { s with reply_to_hops := none }⟩) ∧
    (⟨v, .StaticConnect { s with reply_to_hops := some 0 }⟩ :
        IpPacketRequest) ≠
      ⟨v, .StaticConnect { s with reply_to_hops := none }⟩ ∧
    (from_reconstructed_message (encodeRequest
        ⟨v, .DynamicConnect { d with reply_to_hops := some 0 }⟩) =
      .ok ⟨v, .DynamicConnect { d with reply_to_hops := some 0 }⟩) ∧
    (from_reconstructed_message (encodeRequest
        ⟨v, .DynamicConnect { d with reply_to_hops := none }⟩) =
      .ok ⟨v, .DynamicConnect { d with reply_to_hops := none }⟩) ∧
    (⟨v, .DynamicConnect { d with reply_to_hops := some 0 }⟩ :
        IpPacketRequest) ≠
      ⟨v, .DynamicConnect { d with reply_to_hops := none }⟩ := by
  obtain ⟨hs1, hs2, hs3, hs4, hs5⟩ := hs
  obtain ⟨hd1, hd2, hd3, hd4⟩ := hd
  refine ⟨?_, ?_, ?_, ?_, ?_, ?_⟩
  · exact fromReconstructed_encode _
      ⟨hv, hs1, hs2, hs3, show optBelow 256 (some 0) by decide, hs5⟩
  · exact fromReconstructed_encode _ ⟨hv, hs1, hs2, hs3, trivial, hs5⟩
  · simp
  · exact fromReconstructed_encode _
      ⟨hv, hd1, hd2, show optBelow 256 (some 0) by decide, hd4⟩
  · exact fromReconstructed_encode _ ⟨hv, hd1, hd2, trivial, hd4⟩
  · simp

theorem hops_override_roundtrip_distinct_witness :
    (from_reconstructed_message (encodeRequest
        ⟨4, .StaticConnect { witnessStatic with reply_to_hops := some 0 }⟩) =
      .ok ⟨4, .StaticConnect { witnessStatic with reply_to_hops := some 0 }⟩) ∧
    (from_reconstructed_message (encodeRequest
        ⟨4, .StaticConnect { witnessStatic with reply_to_hops := none }⟩) =
      .ok ⟨4, .StaticConnect { witnessStatic with reply_to_hops := none }⟩) ∧
    (⟨4, .StaticConnect { witnessStatic with reply_to_hops := some 0 }⟩ :
        IpPacketRequest) ≠
      ⟨4, .StaticConnect { witnessStatic with reply_to_hops := none }⟩ ∧
    (from_reconstructed_message (encodeRequest
        ⟨4, .DynamicConnect { witnessDynamic with reply_to_hops := some 0 }⟩) =
      .ok ⟨4, .DynamicConnect { witnessDynamic with reply_to_hops := some 0 }⟩) ∧
    (from_reconstructed_message (encodeRequest
        ⟨4, .DynamicConnect { witnessDynamic with reply_to_hops := none }⟩) =
      .ok ⟨4, .DynamicConnect { witnessDynamic with reply_to_hops := none }⟩) ∧
    (⟨4, .DynamicConnect { witnessDynamic with reply_to_hops := some 0 }⟩ :
        IpPacketRequest) ≠
      ⟨4, .DynamicConnect { witnessDynamic with reply_to_hops := none }⟩ :=
  hops_override_roundtrip_distinct 4 witnessStatic witnessDynamic
    (by decide) (by decide) (by decide)

/-- C6: encoding never fails — `to_bytes` returns `Ok` for every in-memory
`IpPacketRequest`; the error branch of its `Result` is unreachable (the
bincode write path into a `Vec<u8>` is infallible for this type). -/
theorem to_bytes_never_fails (r : IpPacketRequest) :
    ∃ bs : Bytes, to_bytes r = .ok bs :=
  ⟨encodeRequest r, rfl⟩

/-- C7: registry overwrite — after `register k c1` then `register k c2`,
`lookup k` returns `some c2` and the registry size is unchanged relative to
after the first register; moreover `remove` never fails: it returns the
current binding (`none` when absent, as a normal return), and afterwards
`lookup k` is `none`. -/
theorem registry_register_overwrite (reg : GatewayClientRegistry)
    (k : PeerPublicKey) (c1 c2 : GatewayClient) :
    ((reg.register k c1).2.register k c2).2.lookup k = some c2 ∧
    ((reg.register k c1).2.register k c2).2.size =
      (reg.register k c1).2.size ∧
    (reg.remove k).1 = reg.lookup k ∧
    (reg.remove k).2.lookup k = none := by
  refine ⟨?_, ?_, rfl, ?_⟩
  · simp [GatewayClientRegistry.register, GatewayClientRegistry.lookup,
      List.find?]
  · simp [GatewayClientRegistry.register, GatewayClientRegistry.size,
      List.filter_filter]
  · simp [GatewayClientRegistry.remove, GatewayClientRegistry.lookup,
      List.find?_eq_none, List.mem_filter]

/-- C8: gateway session state is never mutated — the accessors are pure
state-passing functions returning the state unchanged, and on a state built
by `new` they return exactly the configuration and key pair supplied and
the registry created at construction. -/
theorem gateway_data_accessors_pure (cfg : Config) (kp : KeyPair)
    (s : WireguardGatewayData) :
    s.config' = (s.config, s) ∧
    s.keypair' = (s.keypair, s) ∧
    s.client_registry' = (s.client_registry, s) ∧
    (WireguardGatewayData.new cfg kp).config'.1 = cfg ∧
    (WireguardGatewayData.new cfg kp).keypair'.1 = kp ∧
    (WireguardGatewayData.new cfg kp).client_registry'.1 =
      (WireguardGatewayData.new cfg kp).client_registry :=
  ⟨rfl, rfl, rfl, rfl, rfl, rfl⟩

/-- C9: every constructor stamps the message with `CURRENT_VERSION` — no
constructor can produce a stale or arbitrary version. -/
theorem constructors_set_current_version :
    ∀ (request_id : Nat) (ip : IpAddr) (reply_to : Recipient)
      (hops delays : Option Nat) (pkt : Bytes),
      (new_static_connect_request request_id ip reply_to hops
        delays).1.version = CURRENT_VERSION ∧
      (new_dynamic_connect_request request_id reply_to hops
        delays).1.version = CURRENT_VERSION ∧
      (new_disconnect_request request_id reply_to).1.version =
        CURRENT_VERSION ∧
      (new_ip_packet pkt).version = CURRENT_VERSION := by
  intro request_id ip reply_to hops delays pkt
  exact ⟨rfl, rfl, rfl, rfl⟩

/-- C10: a freshly constructed `WireguardGatewayData` has an empty client
registry: lookup of any peer public key returns `none` and the size is
zero. -/
theorem new_gateway_registry_empty (cfg : Config) (kp : KeyPair)
    (k : PeerPublicKey) :
    (WireguardGatewayData.new cfg kp).client_registry.lookup k = none ∧
    (WireguardGatewayData.new cfg kp).client_registry.size = 0 :=
  ⟨rfl, rfl⟩
